import Mathlib

/-!
Verification of the csfin-toolkit date utilities and raw-record converters.

The development shallowly embeds:

* `src/packages/core/src/utils/dateutils.ts` — `getDateObject`,
  `isValidISODateString`, `isValidFormattedString`, `createDateFromFormatted`,
  `createDateFromComps`, `getCompsFromFormatted`, `isValidDateComponents`;
* the raw-record converter module — `convertToTransaction`, `convertRawType`,
  `convertToQuoteData`, `convertToQuoteItem`.

JavaScript `Date` built-ins (`Date.UTC`, the ISO date-only parse of
`new Date(string)`, and the `getFullYear`/`getMonth`/`getDate` accessors)
are modelled after their ECMA-262 semantics on the proleptic Gregorian
calendar.  A `Date` value in this code base is always a whole UTC day, so it
is represented by its epoch day count (days since 1970-01-01) as an `Int`.
The host timezone offset (milliseconds to add to UTC to obtain local time)
is an explicit parameter `tz` of every local-time accessor.

The locale-aware number parser is an external collaborator of the module
(an injected capability per the design); it is represented by an arbitrary
function `np : String → Option ℚ`.
-/

namespace Csfin

/-! ### Calendar core (model of ECMA-262 Date internals) -/

/-- Proleptic Gregorian leap-year rule, as in ECMA-262 `InLeapYear`. -/
def isLeap (y : Int) : Bool :=
  (y % 4 == 0 && !(y % 100 == 0)) || y % 400 == 0

/-- Length of month `m` (1–12) in a year with leap flag `leap`;
`0` for out-of-range month indices. -/
def daysInMonthB (leap : Bool) : Nat → Nat
  | 1 => 31
  | 2 => if leap then 29 else 28
  | 3 => 31
  | 4 => 30
  | 5 => 31
  | 6 => 30
  | 7 => 31
  | 8 => 31
  | 9 => 30
  | 10 => 31
  | 11 => 30
  | 12 => 31
  | _ => 0

/-- Days of the year strictly before month `m`: `monthOff leap m`
is the sum of `daysInMonthB leap j` over `j < m` (month `0` has length 0). -/
def monthOff (leap : Bool) : Nat → Nat
  | 0 => 0
  | m + 1 => monthOff leap m + daysInMonthB leap m

/-- Number of days in year `y`. -/
def daysInYear (y : Int) : Nat := if isLeap y then 366 else 365

/-- `sumRange y n` is the total number of days in the `n` consecutive years
`y, y+1, …, y+n-1`. -/
def sumRange (y : Int) : Nat → Nat
  | 0 => 0
  | n + 1 => daysInYear y + sumRange (y + 1) n

/-- `msum leap m r` is the total length of the `r` consecutive months
`m, m+1, …, m+r-1` in a year with leap flag `leap`. -/
def msum (leap : Bool) (m : Nat) : Nat → Nat
  | 0 => 0
  | r + 1 => daysInMonthB leap m + msum leap (m + 1) r

/-- Signed day count from 0000-01-01 to `y`-01-01, in closed form (the
ECMA-262 `DayFromYear` computation re-anchored at year 0): 365 days per
year plus one for every leap year strictly before `y`. -/
def yearsDays (y : Int) : Int :=
  365 * y + (y + 3) / 4 - (y + 99) / 100 + (y + 399) / 400

/-- Epoch day number (days since 1970-01-01) of the calendar day
`y`-`m`-`d`, for a month `m ∈ [1,12]`; `d` may be an arbitrary integer
(day overflow is *not* normalised here — this is the ECMA `MakeDay`
"day 1 of the month plus `d - 1` days" step).  1970-01-01 is day 719528
after 0000-01-01. -/
def dayNumber (y : Int) (m : Nat) (d : Int) : Int :=
  yearsDays y + (monthOff (isLeap y) m : Int) + (d - 1) - 719528

/-- `yearSplit n y rem`: starting at year `y`, repeatedly subtract whole
years from the day count `rem` (at most `n` times), returning the reached
year and the remaining day-of-year. -/
def yearSplit : Nat → Int → Nat → Int × Nat
  | 0, y, rem => (y, rem)
  | n + 1, y, rem =>
    if rem < daysInYear y then (y, rem)
    else yearSplit n (y + 1) (rem - daysInYear y)

/-- `monthSplit n m leap rem`: starting at month `m`, repeatedly subtract
whole months from the day-of-year `rem` (at most `n` times), returning the
reached month and the remaining day-of-month (0-based). -/
def monthSplit : Nat → Nat → Bool → Nat → Nat × Nat
  | 0, m, _, rem => (m, rem)
  | n + 1, m, leap, rem =>
    if rem < daysInMonthB leap m then (m, rem)
    else monthSplit n (m + 1) leap (rem - daysInMonthB leap m)

/-- Calendar day `(year, month, day)` (month 1–12, day 1-based) of an epoch
day number; the ECMA accessor triple `YearFromTime`/`MonthFromTime`/
`DateFromTime`.  Decomposes into 400-year eras (146097 days each), then
scans at most 400 years and 12 months. -/
def civilFromDays (z : Int) : Int × Nat × Nat :=
  let w := z + 719528
  let k := w / 146097
  let doe := (w - 146097 * k).toNat
  let p := yearSplit 400 (400 * k) doe
  let q := monthSplit 12 1 (isLeap p.1) p.2
  (p.1, q.1, q.2 + 1)

/-- Is `(y, m, d)` a real proleptic-Gregorian calendar date? -/
def validYMD (y : Int) (m d : Nat) : Bool :=
  1 ≤ m && m ≤ 12 && 1 ≤ d && d ≤ daysInMonthB (isLeap y) m

/-- `Date.UTC(y, mIdx, d)` restricted to whole days, per ECMA-262:
years 0–99 are interpreted as 1900–1999 (`MakeFullYear`), the month index
is normalised by floored division (`MakeDay`), and the day may overflow. -/
def dateUTC (y mIdx d : Int) : Int :=
  let yy := if 0 ≤ y ∧ y ≤ 99 then y + 1900 else y
  let ym := yy + mIdx / 12
  let mn := (mIdx % 12).toNat + 1
  dayNumber ym mn 1 + (d - 1)

/-- Local epoch day of the UTC-midnight instant `z` (epoch days) for a host
timezone offset of `tz` milliseconds: ECMA `Day(LocalTime(t))`. -/
def localDay (tz z : Int) : Int := (z * 86400000 + tz) / 86400000

/-- `Date.prototype.getFullYear` at UTC-midnight instant `z`, offset `tz`. -/
def getFullYear (tz z : Int) : Int := (civilFromDays (localDay tz z)).1

/-- `Date.prototype.getMonth` (0-based month). -/
def getMonth (tz z : Int) : Int := ((civilFromDays (localDay tz z)).2.1 : Int) - 1

/-- `Date.prototype.getDate` (1-based day of month). -/
def getDate (tz z : Int) : Int := ((civilFromDays (localDay tz z)).2.2 : Int)

/-- `getUTCFullYear` at UTC-midnight instant `z`. -/
def getUTCFullYear (z : Int) : Int := (civilFromDays z).1

/-- `getUTCMonth` (0-based month). -/
def getUTCMonth (z : Int) : Int := ((civilFromDays z).2.1 : Int) - 1

/-- `getUTCDate` (1-based day of month). -/
def getUTCDate (z : Int) : Int := ((civilFromDays z).2.2 : Int)

/-! ### String layer -/

/-- `Number(s)` on an all-digit string: decimal value of a digit list. -/
def listNum (cs : List Char) : Nat :=
  cs.foldl (fun a c => 10 * a + (c.toNat - 48)) 0

/-- `String.prototype.split` on a single-character class: split a character
list at every character satisfying `p` (separators are consumed). -/
def splitWhen (p : Char → Bool) : List Char → List (List Char)
  | [] => [[]]
  | c :: rest =>
    match splitWhen p rest with
    | [] => [[c]]
    | g :: gs => if p c then [] :: g :: gs else (c :: g) :: gs

/-- The regex `/^\d{4}-\d{2}-\d{2}$/` from `isValidISODateString`. -/
def isoShape : List Char → Bool
  | [y1, y2, y3, y4, s1, m1, m2, s2, d1, d2] =>
    y1.isDigit && y2.isDigit && y3.isDigit && y4.isDigit && (s1 == '-') &&
    m1.isDigit && m2.isDigit && (s2 == '-') && d1.isDigit && d2.isDigit
  | _ => false

/-- The regexes `/^\d{2}\.\d{2}\.\d{4}$/` and `/^\d{2}\/\d{2}\/\d{4}$/`
from `isValidFormattedString` (the two separators must agree). -/
def fmtShape : List Char → Bool
  | [d1, d2, s1, m1, m2, s2, y1, y2, y3, y4] =>
    d1.isDigit && d2.isDigit && m1.isDigit && m2.isDigit &&
    y1.isDigit && y2.isDigit && y3.isDigit && y4.isDigit &&
    ((s1 == '.') && (s2 == '.') || (s1 == '/') && (s2 == '/'))
  | _ => false

/-- `dateString.split("-").map(Number)` destructured as `[year, month, day]`
(components default to 0 off the syntactic guard, where the source's tuple
cast is unreachable). -/
def isoComps (s : String) : Nat × Nat × Nat :=
  match (splitWhen (fun c => c == '-') s.data).map listNum with
  | [y, m, d] => (y, m, d)
  | _ => (0, 0, 0)

/-- `getCompsFromFormatted`: `formattedDate.split(/[\\.\\/]/).map(Number)`
destructured as `[day, month, year]` (the character class of the source
regex is backslash, dot, slash). -/
def getCompsFromFormatted (s : String) : Nat × Nat × Nat :=
  match (splitWhen (fun c => c == '.' || c == '/' || c == '\\') s.data).map listNum with
  | [d, m, y] => (d, m, y)
  | _ => (0, 0, 0)

/-- `new Date(dateString)` for a string matching the ISO `YYYY-MM-DD`
pattern, per the ECMA-262 date-time string format: a date-only form is
interpreted as UTC midnight, and a syntactically matching string whose
month/day are out of calendar range yields an invalid date (`none`, the
model of a NaN time value).  The callers in this module only evaluate it
on strings that already match the ISO pattern. -/
def newDateISO (s : String) : Option Int :=
  if isoShape s.data then
    let c := isoComps s
    if validYMD (c.1 : Int) c.2.1 c.2.2 then
      some (dayNumber (c.1 : Int) c.2.1 (c.2.2 : Int))
    else none
  else none

/-- `createDateFromComps(year, month, day) = new Date(Date.UTC(year, month - 1, day))`. -/
def createDateFromComps (year month day : Int) : Int :=
  dateUTC year (month - 1) day

/-- `isValidDateComponents(year, month, day)`: build the date via
`Date.UTC` and compare the *local-time* accessors with the inputs. -/
def isValidDateComponents (tz : Int) (year month day : Int) : Bool :=
  let date := createDateFromComps year month day
  (getFullYear tz date == year) && (getMonth tz date == month - 1) &&
    (getDate tz date == day)

/-- `isValidISODateString`: (A) syntactic pattern, (B/C) the `Date`
instantiation must not be NaN, (D) semantic component round-trip. -/
def isValidISODateString (tz : Int) (s : String) : Bool :=
  if isoShape s.data then
    match newDateISO s with
    | none => false
    | some _ =>
      let c := isoComps s
      isValidDateComponents tz (c.1 : Int) (c.2.1 : Int) (c.2.2 : Int)
  else false

/-- `isValidFormattedString`: (A) syntactic pattern, (B) semantic
component round-trip on the `[day, month, year]` components. -/
def isValidFormattedString (tz : Int) (s : String) : Bool :=
  if fmtShape s.data then
    let c := getCompsFromFormatted s
    isValidDateComponents tz (c.2.2 : Int) (c.2.1 : Int) (c.1 : Int)
  else false

/-- `createDateFromFormatted`. -/
def createDateFromFormatted (s : String) : Int :=
  let c := getCompsFromFormatted s
  createDateFromComps (c.2.2 : Int) (c.2.1 : Int) (c.1 : Int)

/-- The `string | Date` argument of `getDateObject`. -/
inductive DateInput where
  | str (s : String)
  | date (d : Int)

/-- The error kinds of the module: `InvalidDateError` and
`UnknownTransactionTypeError` carry the offending text (the source throws
`Error` objects whose message embeds it); `numberError` marks a failure of
the external number parser on the given text. -/
inductive ConvError where
  | invalidDate (s : String)
  | unknownType (s : String)
  | numberError (s : String)
deriving DecidableEq

/-- `getDateObject`: a `Date` passes through; a string is parsed via the
ISO dialect, then the locale-short dialect, else `InvalidDateError`.
(The ISO branch returns `new Date(dateString)`; under a true validator it
is never NaN, so the `getD` default is unreachable.) -/
def getDateObject (tz : Int) : DateInput → Except ConvError Int
  | DateInput.str s =>
    if isValidISODateString tz s then Except.ok ((newDateISO s).getD 0)
    else if isValidFormattedString tz s then Except.ok (createDateFromFormatted s)
    else Except.error (ConvError.invalidDate s)
  | DateInput.date d => Except.ok d

/-! ### Raw-record converters -/

/-- Raw transaction record.  Modelled from the spec: the `RawTransaction`
type is imported from the converter module's `./types`, which is not part
of the embedded sources; per the spec's data model all its fields are
untyped text. -/
structure RawTransaction where
  executionDate : String
  type : String
  shares : String
  price : String
  totalFees : String

/-- Canonical transaction type. -/
inductive TxType where
  | BUY
  | SELL
deriving DecidableEq

/-- Canonical transaction.  Modelled from the spec: the `Transaction`
class is imported from the core package (not among the embedded sources);
its constructor stores, in order, execution date, type, shares, price,
exchange (nullable identifier) and fees. -/
structure Transaction where
  executionDate : Int
  type : TxType
  shares : ℚ
  price : ℚ
  exchange : Option String
  fees : ℚ
deriving DecidableEq

/-- Raw quote item.  Modelled from the spec: defined in the converter
module's `./types`; both fields are text. -/
structure RawQuoteItem where
  date : String
  price : String

/-- Canonical quote item.  Modelled from the spec: the `QuoteItem`
constructor stores its date argument (passed through unparsed on this
path) and numeric price. -/
structure QuoteItem where
  date : String
  price : ℚ
deriving DecidableEq

/-- Raw quote series.  Modelled from the spec: name, security identifier,
exchange and an ordered item sequence. -/
structure RawQuoteData where
  name : String
  nsin : String
  exchange : String
  items : List RawQuoteItem

/-- Canonical quote series.  Modelled from the spec. -/
structure QuoteData where
  name : String
  nsin : String
  exchange : String
  items : List QuoteItem
deriving DecidableEq

/-- `convertRawType`: exact, case-sensitive token match. -/
def convertRawType (rawType : String) : Except ConvError TxType :=
  if rawType = "Kauf" then Except.ok TxType.BUY
  else if rawType = "Verkauf" then Except.ok TxType.SELL
  else Except.error (ConvError.unknownType rawType)

/-- Lift a result of the external number parser `np` into the failure
monad (a `none` models the parser throwing on that text). -/
def parseNum (np : String → Option ℚ) (s : String) : Except ConvError ℚ :=
  match np s with
  | some q => Except.ok q
  | none => Except.error (ConvError.numberError s)

/-- `convertToTransaction`: constructor arguments evaluated in source
order — date, type, `Math.abs` of shares, price, `null` exchange,
`Math.abs` of fees; the first failure propagates. -/
def convertToTransaction (tz : Int) (np : String → Option ℚ)
    (data : RawTransaction) : Except ConvError Transaction := do
  let d ← getDateObject tz (DateInput.str data.executionDate)
  let ty ← convertRawType data.type
  let sh ← parseNum np data.shares
  let pr ← parseNum np data.price
  let fe ← parseNum np data.totalFees
  Except.ok ⟨d, ty, |sh|, pr, none, |fe|⟩

/-- `convertToQuoteItem`: date passed through, price parsed. -/
def convertToQuoteItem (np : String → Option ℚ) (data : RawQuoteItem) :
    Except ConvError QuoteItem :=
  match np data.price with
  | some p => Except.ok ⟨data.date, p⟩
  | none => Except.error (ConvError.numberError data.price)

/-- `items.map(convertToQuoteItem)` with a throwing callback: left-to-right,
first failure propagates. -/
def mapConvert (np : String → Option ℚ) :
    List RawQuoteItem → Except ConvError (List QuoteItem)
  | [] => Except.ok []
  | it :: rest => do
    let q ← convertToQuoteItem np it
    let qs ← mapConvert np rest
    Except.ok (q :: qs)

/-- `convertToQuoteData`: pass `name`, `nsin`, `exchange` through and map
the items element-wise. -/
def convertToQuoteData (np : String → Option ℚ) (data : RawQuoteData) :
    Except ConvError QuoteData := do
  let items ← mapConvert np data.items
  Except.ok ⟨data.name, data.nsin, data.exchange, items⟩


/-- Decidable equality for the failure monad, so that concrete runs of the
converters can be checked by evaluation. -/
instance {ε α : Type} [DecidableEq ε] [DecidableEq α] : DecidableEq (Except ε α) := by
  intro a b
  cases a <;> cases b
  case error.error e f =>
    exact if h : e = f then Decidable.isTrue (by rw [h])
      else Decidable.isFalse (by intro hc; injection hc; contradiction)
  case error.ok e x => exact Decidable.isFalse (by intro hc; cases hc)
  case ok.error x e => exact Decidable.isFalse (by intro hc; cases hc)
  case ok.ok x y =>
    exact if h : x = y then Decidable.isTrue (by rw [h])
      else Decidable.isFalse (by intro hc; injection hc; contradiction)

/-! ### Concrete fixtures used to instantiate the general theorems -/

/-- A concrete instance of the external number-parser contract, defined on
the handful of numeric texts used by the concrete records below. -/
def npW : String → Option ℚ := fun s =>
  if s = "10" then some 10
  else if s = "-5" then some (-5)
  else if s = "100.5" then some (Rat.mk' 201 2)
  else if s = "-1.5" then some (Rat.mk' (-3) 2)
  else if s = "1.5" then some (Rat.mk' 3 2)
  else if s = "2.5" then some (Rat.mk' 5 2)
  else none

/-- A concrete raw transaction with negative shares and fees. -/
def rW : RawTransaction := ⟨"2023-01-02", "Kauf", "-5", "100.5", "-1.5"⟩

/-- The canonical transaction `convertToTransaction` produces from `rW`. -/
def tW : Transaction := ⟨dayNumber 2023 1 2, TxType.BUY, 5, Rat.mk' 201 2, none, Rat.mk' 3 2⟩

/-- A concrete raw quote series with two items. -/
def qW : RawQuoteData :=
  ⟨"Foo AG", "123456", "XETRA", [⟨"2020-01-02", "1.5"⟩, ⟨"2020-01-03", "2.5"⟩]⟩

/-- The canonical quote series `convertToQuoteData` produces from `qW`. -/
def outW : QuoteData :=
  ⟨"Foo AG", "123456", "XETRA", [⟨"2020-01-02", Rat.mk' 3 2⟩, ⟨"2020-01-03", Rat.mk' 5 2⟩]⟩

end Csfin

/-! ### Calendar arithmetic lemmas -/

namespace Csfin

theorem daysInYear_add_mul_400 (y k : Int) : daysInYear (y + 400 * k) = daysInYear y := by
  have h4 : (y + 400 * k) % 4 = y % 4 := by omega
  have h100 : (y + 400 * k) % 100 = y % 100 := by omega
  have h400 : (y + 400 * k) % 400 = y % 400 := by omega
  simp [daysInYear, isLeap, h4, h100, h400]

theorem sumRange_succ_right (n : Nat) : ∀ y : Int,
    sumRange y (n + 1) = sumRange y n + daysInYear (y + n) := by
  induction n with
  | zero => intro y; simp [sumRange]
  | succ n ih =>
    intro y
    have h1 : sumRange y (n + 1 + 1) = daysInYear y + sumRange (y + 1) (n + 1) := rfl
    rw [h1, ih (y + 1)]
    have h2 : (y + 1) + (n : Int) = y + ((n + 1 : Nat) : Int) := by push_cast; ring
    rw [h2]
    show daysInYear y + (sumRange (y + 1) n + _) = daysInYear y + sumRange (y + 1) n + _
    omega

set_option maxRecDepth 100000

theorem sumRange_zero_400 : sumRange 0 400 = 146097 := by decide

theorem sumRange_stable (y : Int) : sumRange (y + 1) 400 = sumRange y 400 := by
  have h1 : sumRange y 400 = daysInYear y + sumRange (y + 1) 399 := rfl
  have h2 : sumRange (y + 1) 400 = sumRange (y + 1) 399 + daysInYear ((y + 1) + 399) :=
    sumRange_succ_right 399 (y + 1)
  have h3 : (y + 1) + (399 : Int) = y + 400 * 1 := by ring
  rw [h3, daysInYear_add_mul_400] at h2
  omega

theorem sumRange_400 (y : Int) : sumRange y 400 = 146097 := by
  induction y using Int.induction_on with
  | hz => exact sumRange_zero_400
  | hp i ih => rw [sumRange_stable]; exact ih
  | hn i ih => rw [← sumRange_stable (-(i : Int) - 1)]; simpa using ih

theorem yearsDays_succ (y : Int) : yearsDays (y + 1) = yearsDays y + daysInYear y := by
  have hy : yearsDays (y + 1) =
      365 * (y + 1) + (y + 1 + 3) / 4 - (y + 1 + 99) / 100 + (y + 1 + 399) / 400 := rfl
  have hy0 : yearsDays y = 365 * y + (y + 3) / 4 - (y + 99) / 100 + (y + 399) / 400 := rfl
  have hd : (daysInYear y : Int) = if (y % 4 = 0 ∧ ¬ y % 100 = 0) ∨ y % 400 = 0
      then 366 else 365 := by
    simp only [daysInYear, isLeap, Bool.or_eq_true, Bool.and_eq_true, beq_iff_eq,
      Bool.not_eq_eq_eq_not, Bool.not_true, decide_eq_false_iff_not]
    split <;> split <;> simp_all
  rw [hy, hy0, hd]
  split <;> omega

theorem yearsDays_add_nat (n : Nat) : ∀ y : Int,
    yearsDays (y + n) = yearsDays y + sumRange y n := by
  induction n with
  | zero => intro y; simp [sumRange]
  | succ n ih =>
    intro y
    have h1 : y + ((n + 1 : Nat) : Int) = (y + 1) + (n : Int) := by push_cast; ring
    rw [h1, ih (y + 1), yearsDays_succ]
    have h2 : sumRange y (n + 1) = daysInYear y + sumRange (y + 1) n := rfl
    rw [h2]
    push_cast
    ring

theorem yearsDays_era (r : Int) : ∀ k : Int,
    yearsDays (400 * k + r) = 146097 * k + yearsDays r := by
  intro k
  induction k using Int.induction_on with
  | hz => simp
  | hp i ih =>
    have h1 : 400 * ((i : Int) + 1) + r = (400 * i + r) + (400 : Nat) := by push_cast; ring
    rw [h1, yearsDays_add_nat, ih, sumRange_400]
    ring
  | hn i ih =>
    have h1 : 400 * (-(i : Int)) + r = (400 * (-(i : Int) - 1) + r) + (400 : Nat) := by
      push_cast; ring
    rw [h1, yearsDays_add_nat, sumRange_400] at ih
    omega

theorem sumRange_shift_400 (n : Nat) : ∀ y k : Int,
    sumRange (y + 400 * k) n = sumRange y n := by
  induction n with
  | zero => intro y k; rfl
  | succ n ih =>
    intro y k
    have h1 : sumRange (y + 400 * k) (n + 1) =
        daysInYear (y + 400 * k) + sumRange (y + 400 * k + 1) n := rfl
    have h2 : sumRange y (n + 1) = daysInYear y + sumRange (y + 1) n := rfl
    have h3 : y + 400 * k + 1 = (y + 1) + 400 * k := by ring
    rw [h1, h2, h3, ih (y + 1) k, daysInYear_add_mul_400]

theorem yearsDays_zero : yearsDays 0 = 0 := by decide

theorem yearsDays_ofNat (n : Nat) : yearsDays (n : Int) = sumRange 0 n := by
  induction n with
  | zero => exact yearsDays_zero
  | succ n ih =>
    have h1 : ((n + 1 : Nat) : Int) = (n : Int) + 1 := by push_cast; ring
    rw [h1, yearsDays_succ, ih, sumRange_succ_right]
    have h2 : (0 : Int) + (n : Int) = (n : Int) := by ring
    rw [h2]
    push_cast
    ring


theorem msum_back (leap : Bool) : ∀ (r m : Nat),
    msum leap m (r + 1) = msum leap m r + daysInMonthB leap (m + r) := by
  intro r
  induction r with
  | zero => intro m; simp [msum]
  | succ r ih =>
    intro m
    have h1 : msum leap m (r + 1 + 1) = daysInMonthB leap m + msum leap (m + 1) (r + 1) := rfl
    have h2 : msum leap m (r + 1) = daysInMonthB leap m + msum leap (m + 1) r := rfl
    have h3 : m + 1 + r = m + (r + 1) := by omega
    rw [h1, ih (m + 1), h3, h2]
    omega

theorem monthOff_eq_msum (leap : Bool) : ∀ m : Nat, monthOff leap m = msum leap 0 m := by
  intro m
  induction m with
  | zero => rfl
  | succ m ih =>
    have h1 : monthOff leap (m + 1) = monthOff leap m + daysInMonthB leap m := rfl
    rw [h1, ih, msum_back]
    simp

theorem msum_zero_succ (leap : Bool) (m : Nat) : msum leap 0 (m + 1) = msum leap 1 m := by
  have h : msum leap 0 (m + 1) = daysInMonthB leap 0 + msum leap 1 m := rfl
  rw [h]
  simp [daysInMonthB]

theorem msum_one_twelve (y : Int) : msum (isLeap y) 1 12 = daysInYear y := by
  cases h : isLeap y <;> simp [daysInYear, h] <;> decide

theorem yearSplit_exists : ∀ (n : Nat) (y : Int) (doe : Nat), doe < sumRange y n →
    ∃ r rem, r < n ∧ doe = sumRange y r + rem ∧ rem < daysInYear (y + r) := by
  intro n
  induction n with
  | zero => intro y doe h; simp [sumRange] at h
  | succ n ih =>
    intro y doe h
    by_cases hd : doe < daysInYear y
    · exact ⟨0, doe, Nat.succ_pos n, by simp [sumRange], by simpa using hd⟩
    · have hfront : sumRange y (n + 1) = daysInYear y + sumRange (y + 1) n := rfl
      have h2 : doe - daysInYear y < sumRange (y + 1) n := by omega
      obtain ⟨r, rem, hr, heq, hlt⟩ := ih (y + 1) (doe - daysInYear y) h2
      refine ⟨r + 1, rem, by omega, ?_, ?_⟩
      · have hfr : sumRange y (r + 1) = daysInYear y + sumRange (y + 1) r := rfl
        omega
      · have hcast : y + 1 + (r : Int) = y + ((r + 1 : Nat) : Int) := by push_cast; ring
        rwa [hcast] at hlt

theorem yearSplit_correct : ∀ (r n : Nat) (y : Int) (rem : Nat),
    rem < daysInYear (y + r) → r < n →
    yearSplit n y (sumRange y r + rem) = (y + (r : Int), rem) := by
  intro r
  induction r with
  | zero =>
    intro n y rem hlt hn
    obtain ⟨n2, rfl⟩ : ∃ n2, n = n2 + 1 := ⟨n - 1, by omega⟩
    have h0 : sumRange y 0 + rem = rem := by simp [sumRange]
    rw [h0]
    have hy : rem < daysInYear y := by simpa using hlt
    simp [yearSplit, hy]
  | succ r ih =>
    intro n y rem hlt hn
    obtain ⟨n2, rfl⟩ : ∃ n2, n = n2 + 1 := ⟨n - 1, by omega⟩
    have hfront : sumRange y (r + 1) + rem = daysInYear y + (sumRange (y + 1) r + rem) := by
      have h : sumRange y (r + 1) = daysInYear y + sumRange (y + 1) r := rfl
      omega
    rw [hfront]
    have hge : ¬ (daysInYear y + (sumRange (y + 1) r + rem) < daysInYear y) := by omega
    simp only [yearSplit, if_neg hge]
    have harg : daysInYear y + (sumRange (y + 1) r + rem) - daysInYear y =
        sumRange (y + 1) r + rem := by omega
    rw [harg]
    have hcast : y + 1 + (r : Int) = y + ((r + 1 : Nat) : Int) := by push_cast; ring
    have hlt2 : rem < daysInYear (y + 1 + (r : Int)) := by rwa [hcast]
    rw [ih n2 (y + 1) rem hlt2 (by omega), hcast]

theorem monthSplit_exists : ∀ (n m : Nat) (leap : Bool) (doy : Nat), doy < msum leap m n →
    ∃ r rem, r < n ∧ doy = msum leap m r + rem ∧ rem < daysInMonthB leap (m + r) := by
  intro n
  induction n with
  | zero => intro m leap doy h; simp [msum] at h
  | succ n ih =>
    intro m leap doy h
    by_cases hd : doy < daysInMonthB leap m
    · exact ⟨0, doy, Nat.succ_pos n, by simp [msum], by simpa using hd⟩
    · have hfront : msum leap m (n + 1) = daysInMonthB leap m + msum leap (m + 1) n := rfl
      have h2 : doy - daysInMonthB leap m < msum leap (m + 1) n := by omega
      obtain ⟨r, rem, hr, heq, hlt⟩ := ih (m + 1) leap (doy - daysInMonthB leap m) h2
      refine ⟨r + 1, rem, by omega, ?_, ?_⟩
      · have hfr : msum leap m (r + 1) = daysInMonthB leap m + msum leap (m + 1) r := rfl
        omega
      · have hcast : m + 1 + r = m + (r + 1) := by omega
        rwa [hcast] at hlt

theorem monthSplit_correct : ∀ (r n m : Nat) (leap : Bool) (rem : Nat),
    rem < daysInMonthB leap (m + r) → r < n →
    monthSplit n m leap (msum leap m r + rem) = (m + r, rem) := by
  intro r
  induction r with
  | zero =>
    intro n m leap rem hlt hn
    obtain ⟨n2, rfl⟩ : ∃ n2, n = n2 + 1 := ⟨n - 1, by omega⟩
    have h0 : msum leap m 0 + rem = rem := by simp [msum]
    rw [h0]
    have hy : rem < daysInMonthB leap m := by simpa using hlt
    simp [monthSplit, hy]
  | succ r ih =>
    intro n m leap rem hlt hn
    obtain ⟨n2, rfl⟩ : ∃ n2, n = n2 + 1 := ⟨n - 1, by omega⟩
    have hfront : msum leap m (r + 1) + rem =
        daysInMonthB leap m + (msum leap (m + 1) r + rem) := by
      have h : msum leap m (r + 1) = daysInMonthB leap m + msum leap (m + 1) r := rfl
      omega
    rw [hfront]
    have hge : ¬ (daysInMonthB leap m + (msum leap (m + 1) r + rem) < daysInMonthB leap m) := by
      omega
    simp only [monthSplit, if_neg hge]
    have harg : daysInMonthB leap m + (msum leap (m + 1) r + rem) - daysInMonthB leap m =
        msum leap (m + 1) r + rem := by omega
    rw [harg]
    have hcast : m + 1 + r = m + (r + 1) := by omega
    have hlt2 : rem < daysInMonthB leap (m + 1 + r) := by rwa [hcast]
    rw [ih n2 (m + 1) leap rem hlt2 (by omega), hcast]

theorem civilFromDays_spec (z : Int) (y : Int) (m d : Nat)
    (h : civilFromDays z = (y, m, d)) :
    validYMD y m d = true ∧ dayNumber y m (d : Int) = z := by
  simp only [civilFromDays] at h
  set k := (z + 719528) / 146097 with hk
  obtain ⟨doe, hdoe⟩ : ∃ doe : Nat, (doe : Int) = z + 719528 - 146097 * k := by
    refine ⟨(z + 719528 - 146097 * k).toNat, ?_⟩
    omega
  have hdoe_lt : doe < 146097 := by omega
  have e1 : (z + 719528 - 146097 * k).toNat = doe := by omega
  rw [e1] at h
  have hsum400 : sumRange (400 * k) 400 = 146097 := sumRange_400 _
  obtain ⟨r, rem, hr, hre, hrlt⟩ := yearSplit_exists 400 (400 * k) doe (by omega)
  have hys := yearSplit_correct r 400 (400 * k) rem hrlt hr
  rw [← hre] at hys
  rw [hys] at h
  set yv := 400 * k + (r : Int) with hyv
  have hrem_lt : rem < msum (isLeap yv) 1 12 := by
    rw [msum_one_twelve]
    exact hrlt
  obtain ⟨r2, rem2, hr2, hre2, hrlt2⟩ := monthSplit_exists 12 1 (isLeap yv) rem hrem_lt
  have hms := monthSplit_correct r2 12 1 (isLeap yv) rem2 hrlt2 hr2
  rw [← hre2] at hms
  rw [hms] at h
  simp only [Prod.mk.injEq] at h
  obtain ⟨hy, hm, hd⟩ := h
  subst hy
  subst hm
  subst hd
  constructor
  · simp only [validYMD, Bool.and_eq_true, decide_eq_true_eq]
    refine ⟨⟨⟨by omega, by omega⟩, by omega⟩, by omega⟩
  · have hshift : sumRange (400 * k) r = sumRange 0 r := by
      have h0 := sumRange_shift_400 r 0 k
      simpa using h0
    have hyd : yearsDays yv = 146097 * k + (sumRange 0 r : Int) := by
      rw [hyv, yearsDays_era, yearsDays_ofNat]
    have hmo : monthOff (isLeap yv) (1 + r2) = msum (isLeap yv) 1 r2 := by
      rw [Nat.add_comm, monthOff_eq_msum, msum_zero_succ]
    simp only [dayNumber, hyd, hmo]
    omega

theorem daysInMonthB_le31 (leap : Bool) (m : Nat) : daysInMonthB leap m ≤ 31 := by
  unfold daysInMonthB
  split <;> (try split) <;> omega

theorem monthOff_succ (leap : Bool) (m : Nat) :
    monthOff leap (m + 1) = monthOff leap m + daysInMonthB leap m := rfl

theorem monthOff_one (leap : Bool) : monthOff leap 1 = 0 := rfl

theorem monthOff_bound (leap : Bool) (m dd : Nat) (h1 : 1 ≤ m) (h2 : m ≤ 12)
    (h3 : 1 ≤ dd) (h4 : dd ≤ daysInMonthB leap m) :
    monthOff leap m + dd ≤ (if leap then 366 else 365) := by
  have H : ∀ (b : Bool), ∀ mm, mm < 13 → ∀ ee, ee < 32 →
      (1 ≤ mm → 1 ≤ ee → ee ≤ daysInMonthB b mm →
        monthOff b mm + ee ≤ (if b then 366 else 365)) := by decide
  have hdd : dd < 32 := by
    have := daysInMonthB_le31 leap m
    omega
  exact H leap m (by omega) dd hdd h1 h3 h4

theorem monthOff_mono (leap : Bool) (a : Nat) : ∀ b : Nat, a ≤ b →
    monthOff leap a ≤ monthOff leap b := by
  intro b
  induction b with
  | zero =>
    intro h
    have ha : a = 0 := by omega
    subst ha
    exact Nat.le_refl _
  | succ b ih =>
    intro h
    rcases Nat.lt_or_ge a (b + 1) with hlt | hge
    · have h2 := ih (by omega)
      rw [monthOff_succ]
      omega
    · have hab : a = b + 1 := by omega
      subst hab
      exact Nat.le_refl _

theorem dayNumber_bounds (y : Int) (m d : Nat) (h : validYMD y m d = true) :
    dayNumber y 1 1 ≤ dayNumber y m (d : Int) ∧
    dayNumber y m (d : Int) < dayNumber (y + 1) 1 1 := by
  simp only [validYMD, Bool.and_eq_true, decide_eq_true_eq] at h
  obtain ⟨⟨⟨h1, h2⟩, h3⟩, h4⟩ := h
  have hb := monthOff_bound (isLeap y) m d h1 h2 h3 h4
  have hdy : monthOff (isLeap y) m + d ≤ daysInYear y := by
    unfold daysInYear
    split at hb <;> simp_all [daysInYear]
  have hsucc := yearsDays_succ y
  simp only [dayNumber, monthOff_one]
  omega

theorem yearsDays_le (y y2 : Int) (h : y ≤ y2) : yearsDays y ≤ yearsDays y2 := by
  have hn : y2 = y + ((y2 - y).toNat : Int) := by omega
  rw [hn, yearsDays_add_nat]
  omega

theorem dayNumber_inj (y y2 : Int) (m d m2 d2 : Nat)
    (h : validYMD y m d = true) (h2 : validYMD y2 m2 d2 = true)
    (heq : dayNumber y m (d : Int) = dayNumber y2 m2 (d2 : Int)) :
    y = y2 ∧ m = m2 ∧ d = d2 := by
  have hb := dayNumber_bounds y m d h
  have hb2 := dayNumber_bounds y2 m2 d2 h2
  have hyy : y = y2 := by
    rcases lt_trichotomy y y2 with hlt | he | hgt
    · exfalso
      have hle : dayNumber (y + 1) 1 1 ≤ dayNumber y2 1 1 := by
        simp only [dayNumber, monthOff_one]
        have := yearsDays_le (y + 1) y2 (by omega)
        omega
      omega
    · exact he
    · exfalso
      have hle : dayNumber (y2 + 1) 1 1 ≤ dayNumber y 1 1 := by
        simp only [dayNumber, monthOff_one]
        have := yearsDays_le (y2 + 1) y (by omega)
        omega
      omega
  subst hyy
  simp only [validYMD, Bool.and_eq_true, decide_eq_true_eq] at h h2
  obtain ⟨⟨⟨ha1, ha2⟩, ha3⟩, ha4⟩ := h
  obtain ⟨⟨⟨hb1, hb2⟩, hb3⟩, hb4⟩ := h2
  have hsum : monthOff (isLeap y) m + d = monthOff (isLeap y) m2 + d2 := by
    simp only [dayNumber] at heq
    omega
  have hmm : m = m2 := by
    rcases lt_trichotomy m m2 with hlt | he | hgt
    · exfalso
      have hmo1 : monthOff (isLeap y) (m + 1) =
          monthOff (isLeap y) m + daysInMonthB (isLeap y) m := monthOff_succ _ _
      have hmo2 : monthOff (isLeap y) (m + 1) ≤ monthOff (isLeap y) m2 :=
        monthOff_mono _ _ _ (by omega)
      omega
    · exact he
    · exfalso
      have hmo1 : monthOff (isLeap y) (m2 + 1) =
          monthOff (isLeap y) m2 + daysInMonthB (isLeap y) m2 := monthOff_succ _ _
      have hmo2 : monthOff (isLeap y) (m2 + 1) ≤ monthOff (isLeap y) m :=
        monthOff_mono _ _ _ (by omega)
      omega
  subst hmm
  exact ⟨rfl, rfl, by omega⟩

theorem civil_roundtrip (y : Int) (m d : Nat) (h : validYMD y m d = true) :
    civilFromDays (dayNumber y m (d : Int)) = (y, m, d) := by
  rcases hc : civilFromDays (dayNumber y m (d : Int)) with ⟨y2, m2, d2⟩
  obtain ⟨hval, hdn⟩ := civilFromDays_spec _ y2 m2 d2 hc
  obtain ⟨hy, hm, hd⟩ := dayNumber_inj y2 y m2 d2 m d hval h hdn
  rw [hy, hm, hd]


theorem digit_not (c t : Char) (hc : c.isDigit = true) (ht : t.isDigit = false) :
    (c == t) = false := by
  cases hb : c == t with
  | true =>
    have he : c = t := eq_of_beq hb
    rw [he, ht] at hc
    cases hc
  | false => rfl

theorem isoShape_elim (cs : List Char) (H : isoShape cs = true) :
    ∃ a b c d e f g h : Char,
      cs = [a, b, c, d, '-', e, f, '-', g, h] ∧
      a.isDigit = true ∧ b.isDigit = true ∧ c.isDigit = true ∧ d.isDigit = true ∧
      e.isDigit = true ∧ f.isDigit = true ∧ g.isDigit = true ∧ h.isDigit = true := by
  unfold isoShape at H
  split at H
  · rename_i a b c d s1 e f s2 g h
    simp only [Bool.and_eq_true] at H
    obtain ⟨⟨⟨⟨⟨⟨⟨⟨⟨ha, hb⟩, hc⟩, hd⟩, hs1⟩, he⟩, hf⟩, hs2⟩, hg⟩, hh⟩ := H
    refine ⟨a, b, c, d, e, f, g, h, ?_, ha, hb, hc, hd, he, hf, hg, hh⟩
    rw [eq_of_beq hs1, eq_of_beq hs2]
  · cases H

theorem fmtShape_elim (cs : List Char) (H : fmtShape cs = true) :
    ∃ a b s1 c d s2 e f g h : Char,
      cs = [a, b, s1, c, d, s2, e, f, g, h] ∧
      a.isDigit = true ∧ b.isDigit = true ∧ c.isDigit = true ∧ d.isDigit = true ∧
      e.isDigit = true ∧ f.isDigit = true ∧ g.isDigit = true ∧ h.isDigit = true ∧
      ((s1 = '.' ∧ s2 = '.') ∨ (s1 = '/' ∧ s2 = '/')) := by
  unfold fmtShape at H
  split at H
  · rename_i a b s1 c d s2 e f g h
    simp only [Bool.and_eq_true, Bool.or_eq_true] at H
    obtain ⟨⟨⟨⟨⟨⟨⟨⟨ha, hb⟩, hc⟩, hd⟩, he⟩, hf⟩, hg⟩, hh⟩, hsep⟩ := H
    refine ⟨a, b, s1, c, d, s2, e, f, g, h, rfl, ha, hb, hc, hd, he, hf, hg, hh, ?_⟩
    rcases hsep with ⟨h1, h2⟩ | ⟨h1, h2⟩
    · exact Or.inl ⟨eq_of_beq h1, eq_of_beq h2⟩
    · exact Or.inr ⟨eq_of_beq h1, eq_of_beq h2⟩
  · cases H

theorem shapes_disjoint_iso (cs : List Char) (H : isoShape cs = true) :
    fmtShape cs = false := by
  obtain ⟨a, b, c, d, e, f, g, h, hcs, -, -, hc, -, -, -, -, -⟩ := isoShape_elim cs H
  subst hcs
  have hdot : Char.isDigit '.' = false := by decide
  have hsl : Char.isDigit '/' = false := by decide
  simp only [fmtShape, digit_not c _ hc hdot, digit_not c _ hc hsl,
    Bool.false_and, Bool.or_self, Bool.and_false]

theorem shapes_disjoint_fmt (cs : List Char) (H : fmtShape cs = true) :
    isoShape cs = false := by
  obtain ⟨a, b, s1, c, d, s2, e, f, g, h, hcs, -, -, -, hd, -, -, -, -, -⟩ :=
    fmtShape_elim cs H
  subst hcs
  have hdash : Char.isDigit '-' = false := by decide
  simp only [isoShape, digit_not d _ hd hdash, Bool.and_false, Bool.false_and]

theorem localDay_zero (tz z : Int) (htz : tz / 86400000 = 0) : localDay tz z = z := by
  unfold localDay
  omega

theorem dateUTC_valid (y : Int) (m : Nat) (d : Int) (hy : 100 ≤ y) (hm1 : 1 ≤ m)
    (hm2 : m ≤ 12) : dateUTC y ((m : Int) - 1) d = dayNumber y m d := by
  simp only [dateUTC]
  have hcond : ¬ (0 ≤ y ∧ y ≤ 99) := by omega
  rw [if_neg hcond]
  have hdiv : ((m : Int) - 1) / 12 = 0 := by omega
  have hmod : ((m : Int) - 1) % 12 = (m : Int) - 1 := by omega
  rw [hdiv, hmod, add_zero]
  have htn : ((m : Int) - 1).toNat + 1 = m := by omega
  rw [htn]
  simp only [dayNumber]
  omega

theorem compsCheck_inv (tz year month day : Int)
    (H : isValidDateComponents tz year month day = true) :
    ∃ (mn dn : Nat), (mn : Int) = month ∧ (dn : Int) = day ∧
      validYMD year mn dn = true ∧
      dayNumber year mn (dn : Int) =
        localDay tz (createDateFromComps year month day) := by
  simp only [isValidDateComponents, Bool.and_eq_true, beq_iff_eq] at H
  obtain ⟨⟨h1, h2⟩, h3⟩ := H
  rcases hc : civilFromDays (localDay tz (createDateFromComps year month day)) with ⟨cy, cm, cd⟩
  obtain ⟨hval, hdn⟩ := civilFromDays_spec _ cy cm cd hc
  have e1 : getFullYear tz (createDateFromComps year month day) = cy := by
    simp only [getFullYear, hc]
  have e2 : getMonth tz (createDateFromComps year month day) = (cm : Int) - 1 := by
    simp only [getMonth, hc]
  have e3 : getDate tz (createDateFromComps year month day) = (cd : Int) := by
    simp only [getDate, hc]
  rw [e1] at h1
  rw [e2] at h2
  rw [e3] at h3
  have hy : year = cy := h1.symm
  rw [← hy] at hval hdn
  exact ⟨cm, cd, by omega, by omega, hval, hdn⟩

theorem compsCheck_true (tz : Int) (y m d : Nat) (htz : tz / 86400000 = 0)
    (hvalid : validYMD (y : Int) m d = true) (hy : 100 ≤ y) :
    isValidDateComponents tz (y : Int) (m : Int) (d : Int) = true := by
  have hm1 : 1 ≤ m ∧ m ≤ 12 := by
    simp only [validYMD, Bool.and_eq_true, decide_eq_true_eq] at hvalid
    omega
  have hld : ∀ w : Int, localDay tz w = w := fun w => localDay_zero tz w htz
  have h1 : createDateFromComps (y : Int) (m : Int) (d : Int) = dayNumber (y : Int) m (d : Int) := by
    simp only [createDateFromComps]
    exact dateUTC_valid (y : Int) m (d : Int) (by omega) hm1.1 hm1.2
  simp only [isValidDateComponents, h1, getFullYear, getMonth, getDate, hld,
    civil_roundtrip (y : Int) m d hvalid]
  simp

theorem newDateISO_eval (s : String) (y m d : Nat) (hshape : isoShape s.data = true)
    (hcomps : isoComps s = (y, m, d)) :
    newDateISO s = if validYMD (y : Int) m d then some (dayNumber (y : Int) m (d : Int))
      else none := by
  simp only [newDateISO, hshape, if_true, hcomps]

theorem isoValidator_true (tz : Int) (s : String) (y m d : Nat)
    (htz : tz / 86400000 = 0) (hshape : isoShape s.data = true)
    (hcomps : isoComps s = (y, m, d)) (hvalid : validYMD (y : Int) m d = true)
    (hy : 100 ≤ y) : isValidISODateString tz s = true := by
  have hnew : newDateISO s = some (dayNumber (y : Int) m (d : Int)) := by
    rw [newDateISO_eval s y m d hshape hcomps, if_pos hvalid]
  have hchk := compsCheck_true tz y m d htz hvalid hy
  unfold isValidISODateString
  rw [if_pos hshape, hnew]
  dsimp only
  rw [hcomps]
  exact hchk

theorem isoValidator_false_invalid (tz : Int) (s : String) (y m d : Nat)
    (hshape : isoShape s.data = true) (hcomps : isoComps s = (y, m, d))
    (hinv : validYMD (y : Int) m d = false) : isValidISODateString tz s = false := by
  have hnone : newDateISO s = none := by
    rw [newDateISO_eval s y m d hshape hcomps, if_neg (by simp [hinv])]
  unfold isValidISODateString
  rw [if_pos hshape, hnone]

theorem isoValidator_false_of_fmt (tz : Int) (s : String) (hshape : fmtShape s.data = true) :
    isValidISODateString tz s = false := by
  have hno : isoShape s.data = false := shapes_disjoint_fmt _ hshape
  unfold isValidISODateString
  rw [if_neg (by simp [hno])]

theorem fmtValidator_false_of_iso (tz : Int) (s : String) (hshape : isoShape s.data = true) :
    isValidFormattedString tz s = false := by
  have hno : fmtShape s.data = false := shapes_disjoint_iso _ hshape
  unfold isValidFormattedString
  rw [if_neg (by simp [hno])]

theorem fmtValidator_true (tz : Int) (s : String) (d0 m0 y0 : Nat)
    (htz : tz / 86400000 = 0) (hshape : fmtShape s.data = true)
    (hcomps : getCompsFromFormatted s = (d0, m0, y0))
    (hvalid : validYMD (y0 : Int) m0 d0 = true) (hy : 100 ≤ y0) :
    isValidFormattedString tz s = true := by
  have hchk := compsCheck_true tz y0 m0 d0 htz hvalid hy
  unfold isValidFormattedString
  rw [if_pos hshape]
  dsimp only
  rw [hcomps]
  exact hchk

theorem fmtValidator_false_invalid (tz : Int) (s : String) (d0 m0 y0 : Nat)
    (hshape : fmtShape s.data = true) (hcomps : getCompsFromFormatted s = (d0, m0, y0))
    (hinv : validYMD (y0 : Int) m0 d0 = false) : isValidFormattedString tz s = false := by
  unfold isValidFormattedString
  rw [if_pos hshape]
  dsimp only
  rw [hcomps]
  by_contra hcon
  have htrue : isValidDateComponents tz (y0 : Int) (m0 : Int) (d0 : Int) = true := by
    cases hb : isValidDateComponents tz (y0 : Int) (m0 : Int) (d0 : Int) <;> simp_all
  obtain ⟨mn, dn, hmn, hdn, hval, -⟩ := compsCheck_inv tz (y0 : Int) (m0 : Int) (d0 : Int) htrue
  have hm : mn = m0 := by omega
  have hd : dn = d0 := by omega
  rw [hm, hd] at hval
  rw [hinv] at hval
  cases hval

theorem getDateObject_isoBranch (tz : Int) (s : String)
    (H : isValidISODateString tz s = true) :
    getDateObject tz (DateInput.str s) = Except.ok ((newDateISO s).getD 0) := by
  unfold getDateObject
  dsimp only
  rw [if_pos H]

theorem getDateObject_fmtBranch (tz : Int) (s : String)
    (Hiso : isValidISODateString tz s = false) (Hfmt : isValidFormattedString tz s = true) :
    getDateObject tz (DateInput.str s) = Except.ok (createDateFromFormatted s) := by
  unfold getDateObject
  dsimp only
  rw [if_neg (by simp [Hiso]), if_pos Hfmt]

theorem getDateObject_errBranch (tz : Int) (s : String)
    (Hiso : isValidISODateString tz s = false) (Hfmt : isValidFormattedString tz s = false) :
    getDateObject tz (DateInput.str s) = Except.error (ConvError.invalidDate s) := by
  unfold getDateObject
  dsimp only
  rw [if_neg (by simp [Hiso]), if_neg (by simp [Hfmt])]

theorem iso_accept_full (tz : Int) (s : String) (y m d : Nat)
    (htz : tz / 86400000 = 0) (hshape : isoShape s.data = true)
    (hcomps : isoComps s = (y, m, d)) (hvalid : validYMD (y : Int) m d = true)
    (hy : 100 ≤ y) :
    getDateObject tz (DateInput.str s) = Except.ok (dayNumber (y : Int) m (d : Int)) := by
  have hv := isoValidator_true tz s y m d htz hshape hcomps hvalid hy
  rw [getDateObject_isoBranch tz s hv]
  have hnew : newDateISO s = some (dayNumber (y : Int) m (d : Int)) := by
    rw [newDateISO_eval s y m d hshape hcomps, if_pos hvalid]
  rw [hnew]
  rfl

theorem createDateFromFormatted_eq (s : String) (d0 m0 y0 : Nat)
    (hcomps : getCompsFromFormatted s = (d0, m0, y0))
    (hvalid : validYMD (y0 : Int) m0 d0 = true) (hy : 100 ≤ y0) :
    createDateFromFormatted s = dayNumber (y0 : Int) m0 (d0 : Int) := by
  have hm : 1 ≤ m0 ∧ m0 ≤ 12 := by
    simp only [validYMD, Bool.and_eq_true, decide_eq_true_eq] at hvalid
    omega
  unfold createDateFromFormatted
  rw [hcomps]
  dsimp only
  unfold createDateFromComps
  exact dateUTC_valid (y0 : Int) m0 (d0 : Int) (by omega) hm.1 hm.2

theorem fmt_accept_full (tz : Int) (s : String) (d0 m0 y0 : Nat)
    (htz : tz / 86400000 = 0) (hshape : fmtShape s.data = true)
    (hcomps : getCompsFromFormatted s = (d0, m0, y0))
    (hvalid : validYMD (y0 : Int) m0 d0 = true) (hy : 100 ≤ y0) :
    getDateObject tz (DateInput.str s) = Except.ok (dayNumber (y0 : Int) m0 (d0 : Int)) := by
  have h1 := isoValidator_false_of_fmt tz s hshape
  have h2 := fmtValidator_true tz s d0 m0 y0 htz hshape hcomps hvalid hy
  rw [getDateObject_fmtBranch tz s h1 h2]
  rw [createDateFromFormatted_eq s d0 m0 y0 hcomps hvalid hy]

theorem iso_valid_inv (tz : Int) (s : String) (H : isValidISODateString tz s = true) :
    ∃ y m d : Nat, isoComps s = (y, m, d) ∧ isoShape s.data = true ∧
      validYMD (y : Int) m d = true ∧
      newDateISO s = some (dayNumber (y : Int) m (d : Int)) ∧
      isValidDateComponents tz (y : Int) (m : Int) (d : Int) = true := by
  have hs : isoShape s.data = true := by
    by_contra hns
    unfold isValidISODateString at H
    rw [if_neg hns] at H
    cases H
  rcases hcomps : isoComps s with ⟨y, md⟩
  rcases hmd : md with ⟨m, d⟩
  subst hmd
  have hval : validYMD (y : Int) m d = true := by
    by_contra hnv
    have hfalse : validYMD (y : Int) m d = false := by
      cases hb : validYMD (y : Int) m d <;> simp_all
    have hf := isoValidator_false_invalid tz s y m d hs hcomps hfalse
    rw [H] at hf
    cases hf
  have hnew : newDateISO s = some (dayNumber (y : Int) m (d : Int)) := by
    rw [newDateISO_eval s y m d hs hcomps, if_pos hval]
  have hchk : isValidDateComponents tz (y : Int) (m : Int) (d : Int) = true := by
    unfold isValidISODateString at H
    rw [if_pos hs, hnew] at H
    dsimp only at H
    rw [hcomps] at H
    exact H
  exact ⟨y, m, d, rfl, hs, hval, hnew, hchk⟩

theorem fmt_valid_inv (tz : Int) (s : String) (H : isValidFormattedString tz s = true) :
    ∃ d0 m0 y0 : Nat, getCompsFromFormatted s = (d0, m0, y0) ∧ fmtShape s.data = true ∧
      isValidDateComponents tz (y0 : Int) (m0 : Int) (d0 : Int) = true := by
  have hs : fmtShape s.data = true := by
    by_contra hns
    unfold isValidFormattedString at H
    rw [if_neg hns] at H
    cases H
  rcases hcomps : getCompsFromFormatted s with ⟨d0, md⟩
  rcases hmd : md with ⟨m0, y0⟩
  subst hmd
  have hchk : isValidDateComponents tz (y0 : Int) (m0 : Int) (d0 : Int) = true := by
    unfold isValidFormattedString at H
    rw [if_pos hs] at H
    dsimp only at H
    rw [hcomps] at H
    exact H
  exact ⟨d0, m0, y0, rfl, hs, hchk⟩

theorem convertToTransaction_eq (tz : Int) (np : String → Option ℚ) (r : RawTransaction) :
    convertToTransaction tz np r =
      match getDateObject tz (DateInput.str r.executionDate) with
      | Except.error e => Except.error e
      | Except.ok dd =>
        match convertRawType r.type with
        | Except.error e => Except.error e
        | Except.ok ty =>
          match np r.shares with
          | none => Except.error (ConvError.numberError r.shares)
          | some sh =>
            match np r.price with
            | none => Except.error (ConvError.numberError r.price)
            | some pr =>
              match np r.totalFees with
              | none => Except.error (ConvError.numberError r.totalFees)
              | some fe => Except.ok ⟨dd, ty, |sh|, pr, none, |fe|⟩ := by
  unfold convertToTransaction parseNum
  cases hd : getDateObject tz (DateInput.str r.executionDate) with
  | error e => rfl
  | ok dd =>
    cases ht : convertRawType r.type with
    | error e => rfl
    | ok ty =>
      cases hs : np r.shares with
      | none => rfl
      | some sh =>
        cases hp : np r.price with
        | none => rfl
        | some pr =>
          cases hf : np r.totalFees with
          | none => rfl
          | some fe => rfl

theorem convertToQuoteItem_inv (np : String → Option ℚ) (it : RawQuoteItem) (q : QuoteItem)
    (h : convertToQuoteItem np it = Except.ok q) :
    q.date = it.date ∧ np it.price = some q.price := by
  unfold convertToQuoteItem at h
  cases hp : np it.price with
  | none => rw [hp] at h; cases h
  | some p =>
    rw [hp] at h
    injection h with h2
    subst h2
    exact ⟨rfl, rfl⟩

theorem mapConvert_spec (np : String → Option ℚ) : ∀ (l : List RawQuoteItem)
    (l2 : List QuoteItem), mapConvert np l = Except.ok l2 →
    l2.length = l.length ∧
    ∀ (i : Nat) (h1 : i < l.length) (h2 : i < l2.length),
      (l2.get ⟨i, h2⟩).date = (l.get ⟨i, h1⟩).date ∧
      np (l.get ⟨i, h1⟩).price = some (l2.get ⟨i, h2⟩).price := by
  intro l
  induction l with
  | nil =>
    intro l2 h
    unfold mapConvert at h
    injection h with h2
    subst h2
    refine ⟨rfl, ?_⟩
    intro i h1 h2
    exact absurd h1 (by simp)
  | cons it rest ih =>
    intro l2 h
    unfold mapConvert at h
    cases hq : convertToQuoteItem np it with
    | error e =>
      rw [hq] at h
      simp only [Except.bind, bind] at h
      cases h
    | ok q =>
      rw [hq] at h
      cases hr : mapConvert np rest with
      | error e =>
        rw [hr] at h
        simp only [Except.bind, bind] at h
        cases h
      | ok qs =>
        rw [hr] at h
        simp only [Except.bind, bind] at h
        injection h with h2
        subst h2
        obtain ⟨hlen, hpt⟩ := ih qs hr
        obtain ⟨hdq, hpq⟩ := convertToQuoteItem_inv np it q hq
        refine ⟨by simp [hlen], ?_⟩
        intro i h1 h2
        cases i with
        | zero => exact ⟨hdq, hpq⟩
        | succ i =>
          have h1r : i < rest.length := by simpa using h1
          have h2r : i < qs.length := by simpa using h2
          exact hpt i h1r h2r

theorem convertToTransaction_ok_inv (tz : Int) (np : String → Option ℚ)
    (r : RawTransaction) (t : Transaction)
    (h : convertToTransaction tz np r = Except.ok t) :
    ∃ dd ty sh pr fe,
      getDateObject tz (DateInput.str r.executionDate) = Except.ok dd ∧
      convertRawType r.type = Except.ok ty ∧
      np r.shares = some sh ∧ np r.price = some pr ∧ np r.totalFees = some fe ∧
      t = ⟨dd, ty, |sh|, pr, none, |fe|⟩ := by
  rw [convertToTransaction_eq] at h
  cases hd : getDateObject tz (DateInput.str r.executionDate) with
  | error e => rw [hd] at h; cases h
  | ok dd =>
    rw [hd] at h
    cases ht : convertRawType r.type with
    | error e => rw [ht] at h; cases h
    | ok ty =>
      rw [ht] at h
      cases hs : np r.shares with
      | none => rw [hs] at h; cases h
      | some sh =>
        rw [hs] at h
        cases hp : np r.price with
        | none => rw [hp] at h; cases h
        | some pr =>
          rw [hp] at h
          cases hf : np r.totalFees with
          | none => rw [hf] at h; cases h
          | some fe =>
            rw [hf] at h
            injection h with h2
            exact ⟨dd, ty, sh, pr, fe, rfl, rfl, rfl, rfl, rfl, h2.symm⟩


/-! ### Claim theorems -/

/-- C1: every string that matches one of the two supported dialect patterns
syntactically but whose components do not form a real calendar date (such as
"2025-06-31", "31.06.2025" or "31/06/2025") makes `getDateObject` fail with
`InvalidDateError` carrying the offending string, in every host timezone:
the round-trip component check rejects the rolled-forward date. -/
theorem claim_C1 (tz : Int) (s : String)
    (h : (∃ y m d : Nat, isoComps s = (y, m, d) ∧ isoShape s.data = true ∧
            validYMD (y : Int) m d = false) ∨
         (∃ d0 m0 y0 : Nat, getCompsFromFormatted s = (d0, m0, y0) ∧
            fmtShape s.data = true ∧ validYMD (y0 : Int) m0 d0 = false)) :
    getDateObject tz (DateInput.str s) = Except.error (ConvError.invalidDate s) := by
  rcases h with ⟨y, m, d, hc, hs, hv⟩ | ⟨d0, m0, y0, hc, hs, hv⟩
  · exact getDateObject_errBranch tz s
      (isoValidator_false_invalid tz s y m d hs hc hv)
      (fmtValidator_false_of_iso tz s hs)
  · exact getDateObject_errBranch tz s
      (isoValidator_false_of_fmt tz s hs)
      (fmtValidator_false_invalid tz s d0 m0 y0 hs hc hv)

/-- Witness for C1 at the impossible date "2025-06-31" in the UTC timezone. -/
theorem claim_C1_wit :
    getDateObject 0 (DateInput.str "2025-06-31") =
      Except.error (ConvError.invalidDate "2025-06-31") :=
  claim_C1 0 "2025-06-31" (Or.inl ⟨2025, 6, 31, by decide, by decide, by decide⟩)

/-- C2, counterexample to the claim as stated: "0099-01-01" is of the form
`YYYY-MM-DD` and denotes a real proleptic-Gregorian calendar date, yet
`getDateObject` (here in the UTC timezone) rejects it, because
`Date.UTC` maps year 99 to 1999 (`MakeFullYear`), so the component
round-trip check fails for every year below 100. -/
theorem claim_C2_cex :
    isoShape ("0099-01-01".data) = true ∧
    isoComps "0099-01-01" = (99, 1, 1) ∧
    validYMD (99 : Int) 1 1 = true ∧
    getDateObject 0 (DateInput.str "0099-01-01") =
      Except.error (ConvError.invalidDate "0099-01-01") := by
  have hshape : isoShape ("0099-01-01".data) = true := by decide
  have hcomps : isoComps "0099-01-01" = (99, 1, 1) := by decide
  have hvalid2 : validYMD ((99 : Nat) : Int) 1 1 = true := by decide
  have hne : dayNumber ((99 : Nat) : Int) 1 ((1 : Nat) : Int) ≠
      dayNumber (1999 : Int) 1 1 := by decide
  have hdut : createDateFromComps ((99 : Nat) : Int) ((1 : Nat) : Int) ((1 : Nat) : Int) =
      dayNumber (1999 : Int) 1 1 := by decide
  have hchk : isValidDateComponents 0 ((99 : Nat) : Int) ((1 : Nat) : Int)
      ((1 : Nat) : Int) = false := by
    by_contra hcon
    have htrue : isValidDateComponents 0 ((99 : Nat) : Int) ((1 : Nat) : Int)
        ((1 : Nat) : Int) = true := by
      cases hb : isValidDateComponents 0 ((99 : Nat) : Int) ((1 : Nat) : Int)
        ((1 : Nat) : Int) <;> simp_all
    obtain ⟨mn, dn, hmn, hdn, hval, heq⟩ := compsCheck_inv 0 ((99 : Nat) : Int)
      ((1 : Nat) : Int) ((1 : Nat) : Int) htrue
    have hm : mn = 1 := by omega
    have hd : dn = 1 := by omega
    subst hm
    subst hd
    rw [localDay_zero 0 _ (by decide), hdut] at heq
    exact hne heq
  have hisoF : isValidISODateString 0 "0099-01-01" = false := by
    have hnew : newDateISO "0099-01-01" =
        some (dayNumber ((99 : Nat) : Int) 1 ((1 : Nat) : Int)) := by
      rw [newDateISO_eval "0099-01-01" 99 1 1 hshape hcomps, if_pos hvalid2]
    unfold isValidISODateString
    rw [if_pos hshape, hnew]
    dsimp only
    rw [hcomps]
    exact hchk
  have hfmtF : isValidFormattedString 0 "0099-01-01" = false := by
    unfold isValidFormattedString
    rw [if_neg (by decide)]
  exact ⟨hshape, hcomps, by decide, getDateObject_errBranch 0 _ hisoF hfmtF⟩

/-- C2 (amended): (a) in every host timezone, any string the ISO validator
accepts is returned as a date whose UTC year, month and day equal the parsed
components; (b) acceptance itself holds for every `YYYY-MM-DD` string that
denotes a real calendar date with year at least 100, provided the host
timezone offset does not shift UTC midnight to another local day (offsets
in [0, 24h), e.g. UTC).  The original claim's unrestricted acceptance fails
for years 0-99 (see the counterexample). -/
theorem claim_C2 (tz : Int) (s : String) (y m d : Nat)
    (hcomps : isoComps s = (y, m, d)) :
    (isValidISODateString tz s = true →
      ∃ z, getDateObject tz (DateInput.str s) = Except.ok z ∧
        getUTCFullYear z = (y : Int) ∧ getUTCMonth z + 1 = (m : Int) ∧
        getUTCDate z = (d : Int)) ∧
    (tz / 86400000 = 0 → isoShape s.data = true → validYMD (y : Int) m d = true →
      100 ≤ y → isValidISODateString tz s = true) := by
  constructor
  · intro H
    obtain ⟨y2, m2, d2, hc2, hs, hval, hnew, -⟩ := iso_valid_inv tz s H
    rw [hcomps] at hc2
    simp only [Prod.mk.injEq] at hc2
    obtain ⟨hy, hm, hd⟩ := hc2
    subst hy
    subst hm
    subst hd
    refine ⟨dayNumber (y : Int) m (d : Int), ?_, ?_, ?_, ?_⟩
    · rw [getDateObject_isoBranch tz s H, hnew]
      rfl
    · unfold getUTCFullYear
      rw [civil_roundtrip (y : Int) m d hval]
    · unfold getUTCMonth
      rw [civil_roundtrip (y : Int) m d hval]
      dsimp only
      omega
    · unfold getUTCDate
      rw [civil_roundtrip (y : Int) m d hval]
  · intro htz hshape hvalid hy
    exact isoValidator_true tz s y m d htz hshape hcomps hvalid hy

/-- Witness for C2 (amended) at "2023-01-02" in the UTC timezone. -/
theorem claim_C2_wit : isValidISODateString 0 "2023-01-02" = true :=
  (claim_C2 0 "2023-01-02" 2023 1 2 (by decide)).2 (by decide) (by decide)
    (by decide) (by decide)

/-- C3: whenever `convertToTransaction` succeeds, the resulting shares equal
the absolute value of the parsed shares text, the fees equal the absolute
value of the parsed fees text (hence both non-negative), and the price is
the parsed price text stored as-is. -/
theorem claim_C3 (tz : Int) (np : String → Option ℚ) (r : RawTransaction)
    (t : Transaction) (h : convertToTransaction tz np r = Except.ok t) :
    (∃ q, np r.shares = some q ∧ t.shares = |q|) ∧
    (∃ q, np r.totalFees = some q ∧ t.fees = |q|) ∧
    np r.price = some t.price ∧ 0 ≤ t.shares ∧ 0 ≤ t.fees := by
  obtain ⟨dd, ty, sh, pr, fe, hdd, hty, hsh, hpr, hfe, hts⟩ :=
    convertToTransaction_ok_inv tz np r t h
  subst hts
  exact ⟨⟨sh, hsh, rfl⟩, ⟨fe, hfe, rfl⟩, hpr, abs_nonneg sh, abs_nonneg fe⟩

/-- Witness for C3 on a raw transaction with negative shares and fees. -/
theorem claim_C3_wit :
    (∃ q, npW rW.shares = some q ∧ tW.shares = |q|) ∧
    (∃ q, npW rW.totalFees = some q ∧ tW.fees = |q|) ∧
    npW rW.price = some tW.price ∧ 0 ≤ tW.shares ∧ 0 ≤ tW.fees :=
  claim_C3 0 npW rW tW (by decide)

/-- C4: `convertRawType` maps exactly "Kauf" to BUY and exactly "Verkauf" to
SELL, and every other token (case variants and padded variants included)
fails with `UnknownTransactionTypeError` carrying the token. -/
theorem claim_C4 :
    convertRawType "Kauf" = Except.ok TxType.BUY ∧
    convertRawType "Verkauf" = Except.ok TxType.SELL ∧
    ∀ s : String, s ≠ "Kauf" → s ≠ "Verkauf" →
      convertRawType s = Except.error (ConvError.unknownType s) := by
  refine ⟨by decide, by decide, ?_⟩
  intro s h1 h2
  unfold convertRawType
  rw [if_neg h1, if_neg h2]

/-- Witness for C4: a lower-case variant and a padded variant are rejected. -/
theorem claim_C4_wit :
    convertRawType "kauf" = Except.error (ConvError.unknownType "kauf") ∧
    convertRawType " Kauf" = Except.error (ConvError.unknownType " Kauf") :=
  ⟨claim_C4.2.2 "kauf" (by decide) (by decide),
   claim_C4.2.2 " Kauf" (by decide) (by decide)⟩

/-- C5: whenever `convertToQuoteData` succeeds, name, nsin and exchange pass
through unchanged, the item count is preserved, and the i-th output item
keeps the i-th input item's date text unchanged while its price is the
number-parser result of the i-th input item's price text. -/
theorem claim_C5 (np : String → Option ℚ) (q : RawQuoteData) (out : QuoteData)
    (h : convertToQuoteData np q = Except.ok out) :
    out.name = q.name ∧ out.nsin = q.nsin ∧ out.exchange = q.exchange ∧
    out.items.length = q.items.length ∧
    ∀ (i : Nat) (h1 : i < q.items.length) (h2 : i < out.items.length),
      (out.items.get ⟨i, h2⟩).date = (q.items.get ⟨i, h1⟩).date ∧
      np ((q.items.get ⟨i, h1⟩).price) = some ((out.items.get ⟨i, h2⟩).price) := by
  unfold convertToQuoteData at h
  cases hm : mapConvert np q.items with
  | error e =>
    rw [hm] at h
    simp only [Except.bind, bind] at h
    cases h
  | ok items =>
    rw [hm] at h
    simp only [Except.bind, bind] at h
    injection h with h2
    subst h2
    obtain ⟨hlen, hpt⟩ := mapConvert_spec np q.items items hm
    exact ⟨rfl, rfl, rfl, hlen, hpt⟩

/-- Witness for C5 on a two-item quote series. -/
theorem claim_C5_wit :
    outW.name = qW.name ∧ outW.nsin = qW.nsin ∧ outW.exchange = qW.exchange ∧
    outW.items.length = qW.items.length ∧
    ∀ (i : Nat) (h1 : i < qW.items.length) (h2 : i < outW.items.length),
      (outW.items.get ⟨i, h2⟩).date = (qW.items.get ⟨i, h1⟩).date ∧
      npW ((qW.items.get ⟨i, h1⟩).price) = some ((outW.items.get ⟨i, h2⟩).price) :=
  claim_C5 npW qW outW (by decide)

/-- C6: dialect equivalence — "31.12.2020", "31/12/2020" and "2020-12-31"
are all accepted and produce the identical UTC date value (epoch day 18627,
whose UTC components are year 2020, month 12, day 31), in every host
timezone whose offset keeps UTC midnight on the same local day (offsets in
[0, 24h), e.g. UTC). -/
theorem claim_C6 (tz : Int) (htz : tz / 86400000 = 0) :
    getDateObject tz (DateInput.str "31.12.2020") = Except.ok 18627 ∧
    getDateObject tz (DateInput.str "31/12/2020") = Except.ok 18627 ∧
    getDateObject tz (DateInput.str "2020-12-31") = Except.ok 18627 ∧
    getUTCFullYear 18627 = 2020 ∧ getUTCMonth 18627 + 1 = 12 ∧
    getUTCDate 18627 = 31 := by
  have hval : validYMD ((2020 : Nat) : Int) 12 31 = true := by decide
  have hdn : dayNumber (((2020 : Nat)) : Int) 12 (((31 : Nat)) : Int) = 18627 := by decide
  refine ⟨?_, ?_, ?_, by decide, by decide, by decide⟩
  · have h := fmt_accept_full tz "31.12.2020" 31 12 2020 htz (by decide) (by decide) hval
      (by decide)
    rw [hdn] at h
    exact h
  · have h := fmt_accept_full tz "31/12/2020" 31 12 2020 htz (by decide) (by decide) hval
      (by decide)
    rw [hdn] at h
    exact h
  · have h := iso_accept_full tz "2020-12-31" 2020 12 31 htz (by decide) (by decide) hval
      (by decide)
    rw [hdn] at h
    exact h

/-- Witness for C6 in the UTC timezone. -/
theorem claim_C6_wit :
    getDateObject 0 (DateInput.str "31.12.2020") = Except.ok 18627 ∧
    getDateObject 0 (DateInput.str "31/12/2020") = Except.ok 18627 ∧
    getDateObject 0 (DateInput.str "2020-12-31") = Except.ok 18627 ∧
    getUTCFullYear 18627 = 2020 ∧ getUTCMonth 18627 + 1 = 12 ∧
    getUTCDate 18627 = 31 :=
  claim_C6 0 (by decide)

/-- C7: `convertToTransaction` is fail-fast — a date failure, an unknown
type token, or a number-parser failure on shares, price or fees propagates
that failure unchanged as the overall result, and the conversion succeeds
exactly when all five field parses succeed, so no partial transaction is
ever produced. -/
theorem claim_C7 (tz : Int) (np : String → Option ℚ) (r : RawTransaction) :
    (∀ e, getDateObject tz (DateInput.str r.executionDate) = Except.error e →
      convertToTransaction tz np r = Except.error e) ∧
    (∀ dd e, getDateObject tz (DateInput.str r.executionDate) = Except.ok dd →
      convertRawType r.type = Except.error e →
      convertToTransaction tz np r = Except.error e) ∧
    (∀ dd ty, getDateObject tz (DateInput.str r.executionDate) = Except.ok dd →
      convertRawType r.type = Except.ok ty → np r.shares = none →
      convertToTransaction tz np r = Except.error (ConvError.numberError r.shares)) ∧
    (∀ dd ty sh, getDateObject tz (DateInput.str r.executionDate) = Except.ok dd →
      convertRawType r.type = Except.ok ty → np r.shares = some sh → np r.price = none →
      convertToTransaction tz np r = Except.error (ConvError.numberError r.price)) ∧
    (∀ dd ty sh pr, getDateObject tz (DateInput.str r.executionDate) = Except.ok dd →
      convertRawType r.type = Except.ok ty → np r.shares = some sh →
      np r.price = some pr → np r.totalFees = none →
      convertToTransaction tz np r = Except.error (ConvError.numberError r.totalFees)) ∧
    ((∃ t, convertToTransaction tz np r = Except.ok t) ↔
      ((∃ dd, getDateObject tz (DateInput.str r.executionDate) = Except.ok dd) ∧
       (∃ ty, convertRawType r.type = Except.ok ty) ∧
       (∃ sh, np r.shares = some sh) ∧ (∃ pr, np r.price = some pr) ∧
       (∃ fe, np r.totalFees = some fe))) := by
  have heq := convertToTransaction_eq tz np r
  refine ⟨?_, ?_, ?_, ?_, ?_, ?_⟩
  · intro e he
    rw [heq, he]
  · intro dd e h1 h2
    rw [heq, h1, h2]
  · intro dd ty h1 h2 h3
    rw [heq, h1, h2, h3]
  · intro dd ty sh h1 h2 h3 h4
    rw [heq, h1, h2, h3, h4]
  · intro dd ty sh pr h1 h2 h3 h4 h5
    rw [heq, h1, h2, h3, h4, h5]
  · constructor
    · rintro ⟨t, ht⟩
      obtain ⟨dd, ty, sh, pr, fe, hdd, hty, hsh, hpr, hfe, -⟩ :=
        convertToTransaction_ok_inv tz np r t ht
      exact ⟨⟨dd, hdd⟩, ⟨ty, hty⟩, ⟨sh, hsh⟩, ⟨pr, hpr⟩, ⟨fe, hfe⟩⟩
    · rintro ⟨⟨dd, h1⟩, ⟨ty, h2⟩, ⟨sh, h3⟩, ⟨pr, h4⟩, ⟨fe, h5⟩⟩
      exact ⟨⟨dd, ty, |sh|, pr, none, |fe|⟩, by rw [heq, h1, h2, h3, h4, h5]⟩

/-- Witness for C7: an invalid execution date propagates as the overall
result. -/
theorem claim_C7_wit :
    convertToTransaction 0 npW ⟨"bad", "Kauf", "10", "10", "10"⟩ =
      Except.error (ConvError.invalidDate "bad") :=
  (claim_C7 0 npW ⟨"bad", "Kauf", "10", "10", "10"⟩).1
    (ConvError.invalidDate "bad") (by decide)

/-- C8: for every string input accepted by `getDateObject` (host offset
keeping UTC midnight on the same local day, e.g. UTC), the returned date
equals the UTC component assembly `Date.UTC(year, month - 1, day)` of the
parsed components — in particular the ISO branch, which builds the date
from the string, agrees with component assembly on every accepted ISO
string; the locale-short branch is component assembly by construction. -/
theorem claim_C8 (tz : Int) (s : String) (htz : tz / 86400000 = 0) :
    (isValidISODateString tz s = true →
      getDateObject tz (DateInput.str s) =
        Except.ok (createDateFromComps ((isoComps s).1 : Int) ((isoComps s).2.1 : Int)
          ((isoComps s).2.2 : Int))) ∧
    (isValidISODateString tz s = false → isValidFormattedString tz s = true →
      getDateObject tz (DateInput.str s) =
        Except.ok (createDateFromComps ((getCompsFromFormatted s).2.2 : Int)
          ((getCompsFromFormatted s).2.1 : Int) ((getCompsFromFormatted s).1 : Int))) := by
  constructor
  · intro H
    obtain ⟨y, m, d, hc, hs, hval, hnew, hchk⟩ := iso_valid_inv tz s H
    obtain ⟨mn, dn, hmn, hdn, hvmn, heq⟩ := compsCheck_inv tz (y : Int) (m : Int) (d : Int) hchk
    rw [localDay_zero tz _ htz] at heq
    have hm2 : mn = m := by omega
    have hd2 : dn = d := by omega
    subst hm2
    subst hd2
    rw [getDateObject_isoBranch tz s H, hnew, hc]
    dsimp only
    rw [← heq]
    rfl
  · intro H1 H2
    rw [getDateObject_fmtBranch tz s H1 H2]
    rfl

/-- Witness for C8 at the accepted ISO string "2020-12-31" in UTC. -/
theorem claim_C8_wit :
    getDateObject 0 (DateInput.str "2020-12-31") =
      Except.ok (createDateFromComps ((isoComps "2020-12-31").1 : Int)
        ((isoComps "2020-12-31").2.1 : Int) ((isoComps "2020-12-31").2.2 : Int)) :=
  (claim_C8 0 "2020-12-31" (by decide)).1 (by decide)

/-- C9: every successful `convertToTransaction` sets the exchange field to
the "unknown" marker `null` (modelled as `none`), never to an identifier
derived from the input. -/
theorem claim_C9 (tz : Int) (np : String → Option ℚ) (r : RawTransaction)
    (t : Transaction) (h : convertToTransaction tz np r = Except.ok t) :
    t.exchange = none := by
  obtain ⟨dd, ty, sh, pr, fe, -, -, -, -, -, hts⟩ :=
    convertToTransaction_ok_inv tz np r t h
  rw [hts]

/-- Witness for C9 on a concrete successful conversion. -/
theorem claim_C9_wit : tW.exchange = none :=
  claim_C9 0 npW rW tW (by decide)

/-- C10: for every input string the two validators are total Boolean
checks, and `getDateObject` on a string fails only with `InvalidDateError`
carrying that string, exactly when both validators return false; whenever
either validator returns true the call returns a date. -/
theorem claim_C10 (tz : Int) (s : String) :
    ((isValidISODateString tz s = false ∧ isValidFormattedString tz s = false) →
      getDateObject tz (DateInput.str s) = Except.error (ConvError.invalidDate s)) ∧
    ((isValidISODateString tz s = true ∨ isValidFormattedString tz s = true) →
      ∃ z, getDateObject tz (DateInput.str s) = Except.ok z) ∧
    (∀ e, getDateObject tz (DateInput.str s) = Except.error e →
      e = ConvError.invalidDate s ∧ isValidISODateString tz s = false ∧
      isValidFormattedString tz s = false) := by
  refine ⟨?_, ?_, ?_⟩
  · rintro ⟨h1, h2⟩
    exact getDateObject_errBranch tz s h1 h2
  · intro h
    cases hiso : isValidISODateString tz s with
    | true => exact ⟨_, getDateObject_isoBranch tz s hiso⟩
    | false =>
      cases hfmt : isValidFormattedString tz s with
      | true => exact ⟨_, getDateObject_fmtBranch tz s hiso hfmt⟩
      | false =>
        rcases h with h | h
        · rw [hiso] at h
          cases h
        · rw [hfmt] at h
          cases h
  · intro e he
    cases hiso : isValidISODateString tz s with
    | true =>
      rw [getDateObject_isoBranch tz s hiso] at he
      cases he
    | false =>
      cases hfmt : isValidFormattedString tz s with
      | true =>
        rw [getDateObject_fmtBranch tz s hiso hfmt] at he
        cases he
      | false =>
        rw [getDateObject_errBranch tz s hiso hfmt] at he
        injection he with h2
        exact ⟨h2.symm, rfl, rfl⟩

/-- Witness for C10 at a string matching neither dialect. -/
theorem claim_C10_wit :
    getDateObject 0 (DateInput.str "garbage") =
      Except.error (ConvError.invalidDate "garbage") :=
  (claim_C10 0 "garbage").1 ⟨by decide, by decide⟩

end Csfin
